import Mathlib

/-!
Shallow embedding of the forge form-builder "Designer State Engine":
the ordered element list kept by the designer context (DesignerContextProvider),
its mutation operations (addElement / removeElement / updateElement), the
drag-end resolution algorithm of the Designer component's useDndMonitor
handler, and the field registry's validate contract.

JS arrays are modelled as Lean lists; `Array.prototype.splice` index semantics
(negative indices count from the end, overlong indices append) are made
explicit; a thrown `Error` is modelled with `Except`.
-/

namespace Forge

/-- Field type tags: the `ElementType` union of components/form-elements.tsx. -/
inductive ElementType
  | TextField
  | TitleField
  | SubTitleField
  | ParagraphField
  | SeparatorField
  | SpacerField
  | NumberField
  | TextAreaField
  | DateField
  | CheckboxField
  | SelectField
deriving DecidableEq, Inhabited

/-- The slice of a field instance's `extraAttributes` record that `validate`
reads: the `required` flag. In the source `extraAttributes` is a
`Record<string, any>`; an absent or undefined `required` key is modelled as
`none` (JS truthiness: `undefined` is falsy). -/
structure ExtraAttrs where
  required : Option Bool := none
deriving DecidableEq, Inhabited

/-- `FormElementInstance` of components/form-elements.tsx: a placed element
with stable id, field type tag and its attributes. `extraAttributes` is
optional in the TS type but set by every field's `construct`. -/
structure FormElementInstance where
  id : String
  type : ElementType
  extraAttributes : ExtraAttrs := {}
deriving DecidableEq, Inhabited

/-- The default `extraAttributes` each field's `construct` installs, restricted
to the modelled `required` flag: the input-like fields all declare
`required: false`; the layout fields (title, subtitle, paragraph, separator,
spacer) have no `required` key at all. -/
def defaultExtraAttrs : ElementType → ExtraAttrs
  | ElementType.TextField => { required := some false }
  | ElementType.NumberField => { required := some false }
  | ElementType.TextAreaField => { required := some false }
  | ElementType.DateField => { required := some false }
  | ElementType.CheckboxField => { required := some false }
  | ElementType.SelectField => { required := some false }
  | _ => { required := none }

/-- `FormElements[type].construct(id)`: builds a fresh instance of the given
field type with the type's default attributes. -/
def construct (t : ElementType) (id : String) : FormElementInstance :=
  { id := id, type := t, extraAttributes := defaultExtraAttrs t }

/-- JS truthiness of `element.extraAttributes?.required`. -/
def truthyRequired (el : FormElementInstance) : Bool :=
  el.extraAttributes.required.getD false

/-- `validate` of TextFieldFormElement (text-field.tsx) and, with identical
bodies, of NumberField, DateField and SelectField: when `required` is truthy
the raw value must be non-empty (`currentValue.length > 0`). -/
def requiredNonEmptyValidate (el : FormElementInstance) (v : String) : Bool :=
  if truthyRequired el then decide (0 < v.length) else true

/-- `validate` of CheckboxFieldFormElement: when `required` is truthy the raw
value must be the string "true" (`currentValue === "true"`), i.e. the checkbox
must actually be checked. -/
def checkboxValidate (el : FormElementInstance) (v : String) : Bool :=
  if truthyRequired el then v == "true" else true

/-- Modelled from the spec: the registry imports `TextAreaFieldFormElement`
from fields/textarea-field.tsx, a file missing from the sources; per the
validation contract (spec section 4.2) it returns false only when `required`
is true and the raw value is empty. -/
def textAreaValidate (el : FormElementInstance) (v : String) : Bool :=
  if truthyRequired el then decide (0 < v.length) else true

/-- The registry's validate dispatch (`FormElements` of form-elements.tsx).
Title, subtitle, paragraph, separator and spacer fields use `() => true`. -/
def validate : ElementType → FormElementInstance → String → Bool
  | ElementType.TextField => requiredNonEmptyValidate
  | ElementType.TitleField => fun _ _ => true
  | ElementType.SubTitleField => fun _ _ => true
  | ElementType.ParagraphField => fun _ _ => true
  | ElementType.SeparatorField => fun _ _ => true
  | ElementType.SpacerField => fun _ _ => true
  | ElementType.NumberField => requiredNonEmptyValidate
  | ElementType.TextAreaField => textAreaValidate
  | ElementType.DateField => requiredNonEmptyValidate
  | ElementType.CheckboxField => checkboxValidate
  | ElementType.SelectField => requiredNonEmptyValidate

/-- `addElement(index, element)` of the designer context (DesignerContextProvider):
`newElements.splice(index, 0, element)`. JS splice index semantics: a negative
index counts from the end, `max(length + index, 0)`; an index at or beyond the
length appends at the end (`take`/`drop` realise the upper clamp). -/
def addElement (index : Int) (element : FormElementInstance)
    (l : List FormElementInstance) : List FormElementInstance :=
  let k : Nat := if index < 0 then ((l.length : Int) + index).toNat else index.toNat
  l.take k ++ element :: l.drop k

/-- The actual insertion position JS `splice(index, 0, e)` uses on an array of
length `len`: `max(len + index, 0)` for a negative index, `min(index, len)`
otherwise. -/
def spliceIndex (index : Int) (len : Nat) : Nat :=
  if index < 0 then ((len : Int) + index).toNat else min index.toNat len

/-- `removeElement(id)` of the designer context:
`prev.filter((element) => element.id !== id)`. -/
def removeElement (id : String) (l : List FormElementInstance) :
    List FormElementInstance :=
  l.filter (fun element => element.id != id)

/-- `updateElement(id, element)` of the designer context: `findIndex` on the id
then `newElements[index] = element`. When the id is not found, `findIndex`
yields -1 and the JS assignment at slot -1 creates a non-index property on the
array object, leaving the array's indexed contents and length unchanged: that
branch is modelled as the identity. -/
def updateElement (id : String) (element : FormElementInstance)
    (l : List FormElementInstance) : List FormElementInstance :=
  match l.findIdx? (fun el => el.id == id) with
  | some index => l.set index element
  | none => l

/-- The designer context state: the ordered element list and the element
currently selected for property editing. -/
structure DesignerState where
  elements : List FormElementInstance
  selectedElement : Option FormElementInstance
deriving DecidableEq, Inhabited

/-- Effect on the whole designer state of a `removeElement(id)` call — in
particular of the delete button's onClick in DesignerElementWrapper, which
calls only `removeElement(element.id)`. The context's `removeElement` calls
only `setElements`; `selectedElement` is not touched. -/
def removeElementState (id : String) (s : DesignerState) : DesignerState :=
  { s with elements := removeElement id s.elements }

/-- Drag payload of the active (dragged) node: a sidebar field button carries
`isDesignerBtnElement` and its field `type`; a placed element's drag handle
carries `isDesignerElement` and its `elementId`. Fields absent from a payload
keep their falsy defaults. -/
structure ActiveData where
  isDesignerBtnElement : Bool := false
  isDesignerElement : Bool := false
  type : ElementType := ElementType.TextField
  elementId : String := ""
deriving DecidableEq, Inhabited

/-- Drop payload of the over node: the canvas drop area carries
`isDesignerDropArea`; an element's half-zones carry the half flag and the
element's `elementId`. -/
structure OverData where
  isDesignerDropArea : Bool := false
  isTopHalfDesignerElement : Bool := false
  isBottomHalfDesignerElement : Bool := false
  elementId : String := ""
deriving DecidableEq, Inhabited

/-- A dnd-kit DragEndEvent as read by the handler: the optional active and
over payloads. -/
structure DragEndEvent where
  active : Option ActiveData := none
  over : Option OverData := none
deriving DecidableEq, Inhabited

/-- The error taxonomy hit by the handler: `throw new Error("Element not
found")` when a target id does not resolve to a list position. -/
inductive DesignerError
  | elementNotFound
deriving DecidableEq, Inhabited

/-- The `useDndMonitor` onDragEnd handler of the Designer component
(designer.tsx), over the designer context state. `newId` stands for the
`idGenerator()` call; a thrown `Error` is modelled as `Except.error`. The
three cases mirror the source: sidebar button onto the drop area, sidebar
button onto an element half-zone, and repositioning a placed element onto an
element half-zone; any other event leaves the state unchanged. -/
def onDragEnd (newId : String) (ev : DragEndEvent) (s : DesignerState) :
    Except DesignerError DesignerState :=
  match ev.active, ev.over with
  | some active, some over =>
    if active.isDesignerBtnElement && over.isDesignerDropArea then
      Except.ok { s with
        elements := addElement (Int.ofNat s.elements.length)
          (construct active.type newId) s.elements }
    else
      let isDroppingOverDesignerElement :=
        over.isBottomHalfDesignerElement || over.isTopHalfDesignerElement
      if active.isDesignerBtnElement && isDroppingOverDesignerElement then
        match s.elements.findIdx? (fun el => el.id == over.elementId) with
        | none => Except.error DesignerError.elementNotFound
        | some overElementIndex =>
          let indexForNewElement :=
            if over.isBottomHalfDesignerElement then overElementIndex + 1
            else overElementIndex
          Except.ok { s with
            elements := addElement (Int.ofNat indexForNewElement)
              (construct active.type newId) s.elements }
      else if isDroppingOverDesignerElement && active.isDesignerElement then
        match s.elements.findIdx? (fun el => el.id == active.elementId),
            s.elements.findIdx? (fun el => el.id == over.elementId) with
        | some activeElementIndex, some overElementIndex =>
          let activeElement := s.elements.getD activeElementIndex default
          let shortened := removeElement active.elementId s.elements
          let indexForNewElement :=
            if over.isBottomHalfDesignerElement then overElementIndex + 1
            else overElementIndex
          Except.ok { s with
            elements := addElement (Int.ofNat indexForNewElement)
              activeElement shortened }
        | _, _ => Except.error DesignerError.elementNotFound
      else Except.ok s
  | _, _ => Except.ok s

/-- The designer state after the handler runs: a thrown error propagates out
of the event handler before any `setElements` call was made, so the React
state is unchanged and the session continues with the prior list. -/
def applyDragEnd (newId : String) (ev : DragEndEvent) (s : DesignerState) :
    DesignerState :=
  match onDragEnd newId ev s with
  | Except.ok s2 => s2
  | Except.error _ => s

/-- Event shape: dragging the sidebar button of field type `t` and dropping it
over a half-zone (top when `bottom` is false) of the element with id `tgtId`,
as tagged by the droppables of DesignerElementWrapper. -/
def newFieldOverElementEvent (t : ElementType) (tgtId : String) (bottom : Bool) :
    DragEndEvent :=
  { active := some { isDesignerBtnElement := true, type := t },
    over := some { isTopHalfDesignerElement := !bottom,
                   isBottomHalfDesignerElement := bottom,
                   elementId := tgtId } }

/-- Event shape: dragging the placed element with id `srcId` by its drag
handle and dropping it over a half-zone of the element with id `tgtId`. -/
def repositionEvent (srcId tgtId : String) (bottom : Bool) : DragEndEvent :=
  { active := some { isDesignerElement := true, elementId := srcId },
    over := some { isTopHalfDesignerElement := !bottom,
                   isBottomHalfDesignerElement := bottom,
                   elementId := tgtId } }

/-- The reposition algorithm exactly as the spec words it (a refinement model,
deliberately not taken from the source): remove the source element first, then
recompute the target position in the now-shortened list by id lookup, then
insert at that position (+1 for the bottom half). -/
def specReposition (srcId tgtId : String) (bottom : Bool)
    (l : List FormElementInstance) : Option (List FormElementInstance) :=
  match l.findIdx? (fun el => el.id == srcId) with
  | none => none
  | some i =>
    let x := l.getD i default
    let shortened := removeElement srcId l
    match shortened.findIdx? (fun el => el.id == tgtId) with
    | none => none
    | some j => some (addElement (Int.ofNat (if bottom then j + 1 else j)) x shortened)

/-- A designer-context mutation call, for sequences of operations. -/
inductive DesignerOp
  | add (index : Int) (element : FormElementInstance)
  | remove (id : String)
deriving DecidableEq

/-- Apply one context mutation to the element list. -/
def applyOp (l : List FormElementInstance) : DesignerOp → List FormElementInstance
  | DesignerOp.add index element => addElement index element l
  | DesignerOp.remove id => removeElement id l

/-- Run a sequence of context mutations starting from the initially empty
element list of the provider. -/
def runOps (ops : List DesignerOp) : List FormElementInstance :=
  ops.foldl applyOp []

/-- The id column of an element list. -/
def ids (l : List FormElementInstance) : List String :=
  l.map FormElementInstance.id

/-- An operation sequence is fresh for a starting list when every `add` in it
inserts an element whose id is not present at that point (in the app this is
what `idGenerator()` provides). -/
def freshRun : List DesignerOp → List FormElementInstance → Bool
  | [], _ => true
  | op :: rest, l =>
    (match op with
     | DesignerOp.add _ e => !(decide (e.id ∈ ids l))
     | DesignerOp.remove _ => true) && freshRun rest (applyOp l op)

/-- Concrete elements used in concrete evaluations. -/
def eA : FormElementInstance := { id := "A", type := ElementType.TextField }

def eB : FormElementInstance := { id := "B", type := ElementType.TextField }

def eC : FormElementInstance := { id := "C", type := ElementType.TextField }

def eX : FormElementInstance := { id := "X", type := ElementType.TextField }

/-- A checkbox instance with the required flag switched on. -/
def cbReq : FormElementInstance :=
  { id := "c", type := ElementType.CheckboxField,
    extraAttributes := { required := some true } }

/-- A text field instance with the required flag switched on. -/
def tReq : FormElementInstance :=
  { id := "t", type := ElementType.TextField,
    extraAttributes := { required := some true } }

/-- Decidable equality of handler outcomes, for concrete evaluations. -/
instance : DecidableEq (Except DesignerError DesignerState) := fun a b =>
  match a, b with
  | Except.ok x, Except.ok y =>
    if h : x = y then isTrue (by rw [h])
    else isFalse (by intro hc; cases hc; exact h rfl)
  | Except.error x, Except.error y =>
    if h : x = y then isTrue (by rw [h])
    else isFalse (by intro hc; cases hc; exact h rfl)
  | Except.ok _, Except.error _ => isFalse (by intro hc; cases hc)
  | Except.error _, Except.ok _ => isFalse (by intro hc; cases hc)

/-!
Helper lemmas about the embedded operations, shared by the claim theorems.
-/

/-- The id column of a cons. -/
theorem ids_cons (a : FormElementInstance) (l : List FormElementInstance) :
    ids (a :: l) = a.id :: ids l := rfl

/-- In a list with pairwise-distinct ids, looking up the id of the element at
position `i` finds exactly position `i`. -/
theorem findIdx?_id_at (l : List FormElementInstance) (hnd : (ids l).Nodup)
    (i : Nat) (h : i < l.length) :
    l.findIdx? (fun el => el.id == (l[i]).id) = some i := by
  induction l generalizing i with
  | nil => simp at h
  | cons a t ih =>
    rw [ids_cons, List.nodup_cons] at hnd
    cases i with
    | zero => simp
    | succ n =>
      have hn : n < t.length := by simpa using h
      have hne : a.id ≠ (t[n]).id := by
        intro he
        exact hnd.1 (he ▸ List.mem_map.mpr ⟨t[n], List.getElem_mem hn, rfl⟩)
      have hget : (a :: t)[n + 1] = t[n] := rfl
      rw [hget, List.findIdx?_cons, if_neg (by simp [hne]), List.findIdx?_succ,
        ih hnd.2 n hn]
      rfl

/-- When no element carries the id, the lookup fails. -/
theorem findIdx?_id_none (l : List FormElementInstance) (x : String)
    (h : ∀ e ∈ l, e.id ≠ x) :
    l.findIdx? (fun el => el.id == x) = none := by
  rw [List.findIdx?_eq_none_iff]
  intro e he
  simp [h e he]

/-- In a list with pairwise-distinct ids, filtering out the id of the element
at position `i` erases exactly position `i`. -/
theorem removeElement_eq_eraseIdx (l : List FormElementInstance)
    (hnd : (ids l).Nodup) (i : Nat) (h : i < l.length) :
    removeElement ((l[i]).id) l = l.eraseIdx i := by
  induction l generalizing i with
  | nil => simp at h
  | cons a t ih =>
    rw [ids_cons, List.nodup_cons] at hnd
    cases i with
    | zero =>
      show List.filter _ (a :: t) = t
      rw [List.filter_cons_of_neg (by simp)]
      rw [List.filter_eq_self]
      intro e he
      have : e.id ≠ a.id := by
        intro hid
        exact hnd.1 (hid ▸ List.mem_map.mpr ⟨e, he, rfl⟩)
      simpa using this
    | succ n =>
      have hn : n < t.length := by simpa using h
      have hne : a.id ≠ (t[n]).id := by
        intro he
        exact hnd.1 (he ▸ List.mem_map.mpr ⟨t[n], List.getElem_mem hn, rfl⟩)
      have hget : (a :: t)[n + 1] = t[n] := rfl
      show List.filter _ (a :: t) = _
      rw [hget, List.filter_cons_of_pos (by simpa using hne), List.eraseIdx_cons_succ]
      exact congrArg (a :: ·) (ih hnd.2 n hn)

/-- Decomposition of a list at a valid position. -/
theorem take_getElem_drop (l : List FormElementInstance) (i : Nat)
    (h : i < l.length) :
    l.take i ++ l[i] :: l.drop (i + 1) = l := by
  rw [← List.drop_eq_getElem_cons h, List.take_append_drop]

/-- `addElement` at a nonnegative index is plain take/cons/drop splicing. -/
theorem addElement_ofNat (k : Nat) (e : FormElementInstance)
    (l : List FormElementInstance) :
    addElement (Int.ofNat k) e l = l.take k ++ e :: l.drop k := by
  have hnot : ¬ (Int.ofNat k < 0) := Int.not_lt.mpr (Int.ofNat_nonneg k)
  unfold addElement
  simp only [if_neg hnot]
  rfl

/-- Splicing an element in is a permutation of pushing it on the front. -/
theorem splice_perm_cons (k : Nat) (e : FormElementInstance)
    (l : List FormElementInstance) :
    (l.take k ++ e :: l.drop k).Perm (e :: l) := by
  have h := @List.perm_middle _ e (l.take k) (l.drop k)
  rwa [List.take_append_drop] at h

/-- A list is a permutation of its element at `i` pushed onto the erasure. -/
theorem perm_getElem_cons_eraseIdx (l : List FormElementInstance) (i : Nat)
    (h : i < l.length) :
    l.Perm (l[i] :: l.eraseIdx i) := by
  rw [List.eraseIdx_eq_take_drop_succ]
  conv_lhs => rw [← take_getElem_drop l i h]
  exact List.perm_middle

/-- Evaluation of the handler's third case on a list with unique ids: the
source element at `i` is removed and reinserted at the index the target held
in the original list (stale index), +1 for the bottom half. -/
theorem onDragEnd_reposition_eval (l : List FormElementInstance)
    (sel : Option FormElementInstance) (newId : String) (i j : Nat)
    (hi : i < l.length) (hj : j < l.length) (hnd : (ids l).Nodup)
    (bottom : Bool) :
    onDragEnd newId (repositionEvent ((l[i]).id) ((l[j]).id) bottom) ⟨l, sel⟩
      = Except.ok ⟨addElement (Int.ofNat (if bottom then j + 1 else j)) (l[i])
          (removeElement ((l[i]).id) l), sel⟩ := by
  have hfi : l.findIdx? (fun el => el.id == (l[i]).id) = some i :=
    findIdx?_id_at l hnd i hi
  have hfj : l.findIdx? (fun el => el.id == (l[j]).id) = some j :=
    findIdx?_id_at l hnd j hj
  unfold onDragEnd repositionEvent
  simp only [Bool.false_and, Bool.or_not_self, Bool.true_and, Bool.and_true,
    if_false]
  rw [hfi, hfj]
  simp [List.getD_eq_getElem _ _ hi, List.getElem?_eq_getElem hi]

/-- Evaluation of the handler's second case on a list with unique ids: the
new element is inserted at the target's index, +1 for the bottom half. -/
theorem onDragEnd_newField_eval (l : List FormElementInstance)
    (sel : Option FormElementInstance) (newId : String) (t : ElementType)
    (j : Nat) (hj : j < l.length) (hnd : (ids l).Nodup) (bottom : Bool) :
    onDragEnd newId (newFieldOverElementEvent t ((l[j]).id) bottom) ⟨l, sel⟩
      = Except.ok ⟨addElement (Int.ofNat (if bottom then j + 1 else j))
          (construct t newId) l, sel⟩ := by
  have hfj : l.findIdx? (fun el => el.id == (l[j]).id) = some j :=
    findIdx?_id_at l hnd j hj
  unfold onDragEnd newFieldOverElementEvent
  simp only [Bool.true_and, Bool.or_not_self, Bool.and_true, Bool.and_false,
    if_false]
  rw [hfj]
  simp

/-- C8: dropping a new field from the sidebar onto the bottom half-zone of the
element at position P of a list of length N with unique ids yields a list of
length N+1 whose element at position P+1 is the newly constructed element,
with the element previously at position P unchanged and still at position P. -/
theorem newField_bottomHalf_inserts_after (l : List FormElementInstance)
    (sel : Option FormElementInstance) (newId : String) (t : ElementType)
    (P : Nat) (hP : P < l.length) (hnd : (ids l).Nodup) :
    ∃ res,
      onDragEnd newId (newFieldOverElementEvent t ((l[P]).id) true) ⟨l, sel⟩
        = Except.ok ⟨res, sel⟩
      ∧ res.length = l.length + 1
      ∧ res[P + 1]? = some (construct t newId)
      ∧ res[P]? = some (l[P]) := by
  have heval := onDragEnd_newField_eval l sel newId t P hP hnd true
  rw [if_pos rfl, addElement_ofNat] at heval
  have hlen : (l.take (P + 1)).length = P + 1 := by
    rw [List.length_take]
    omega
  refine ⟨l.take (P + 1) ++ construct t newId :: l.drop (P + 1), heval, ?_, ?_, ?_⟩
  · rw [List.length_append, List.length_cons, List.length_drop, hlen]
    omega
  · rw [List.getElem?_append_right (by omega), hlen]
    simp
  · rw [List.getElem?_append_left (by omega), List.getElem?_take,
      if_pos (by omega), List.getElem?_eq_getElem hP]

/-- C8 witness: dropping a new TextField onto the bottom half of B (position 1
of [A, B, C]) puts the new element at position 2 and keeps B at position 1. -/
theorem newField_bottomHalf_inserts_after_witness :
    ∃ res,
      onDragEnd "n" (newFieldOverElementEvent ElementType.TextField "B" true)
          ⟨[eA, eB, eC], none⟩
        = Except.ok ⟨res, none⟩
      ∧ res.length = 3 + 1
      ∧ res[1 + 1]? = some (construct ElementType.TextField "n")
      ∧ res[1]? = some eB :=
  newField_bottomHalf_inserts_after [eA, eB, eC] none "n" ElementType.TextField
    1 (by decide) (by decide)

/-- C5: when the drop target's element id does not resolve to a position in
the current list — in the new-element-over-element case and in the reposition
case alike — the handler throws (Element not found) before any mutation, so
the element list and the selection state are unchanged and the session keeps
its prior state. -/
theorem unresolved_target_aborts_unchanged (l : List FormElementInstance)
    (sel : Option FormElementInstance) (newId : String) (t : ElementType)
    (srcId tgtId : String) (bottom : Bool) (h : ∀ e ∈ l, e.id ≠ tgtId) :
    onDragEnd newId (newFieldOverElementEvent t tgtId bottom) ⟨l, sel⟩
        = Except.error DesignerError.elementNotFound
    ∧ applyDragEnd newId (newFieldOverElementEvent t tgtId bottom) ⟨l, sel⟩
        = ⟨l, sel⟩
    ∧ onDragEnd newId (repositionEvent srcId tgtId bottom) ⟨l, sel⟩
        = Except.error DesignerError.elementNotFound
    ∧ applyDragEnd newId (repositionEvent srcId tgtId bottom) ⟨l, sel⟩
        = ⟨l, sel⟩ := by
  have hfn : l.findIdx? (fun el => el.id == tgtId) = none :=
    findIdx?_id_none l tgtId h
  have h1 : onDragEnd newId (newFieldOverElementEvent t tgtId bottom) ⟨l, sel⟩
      = Except.error DesignerError.elementNotFound := by
    unfold onDragEnd newFieldOverElementEvent
    simp only [Bool.true_and, Bool.or_not_self, Bool.and_true, Bool.and_false,
      if_false]
    rw [hfn]
    simp
  have h2 : onDragEnd newId (repositionEvent srcId tgtId bottom) ⟨l, sel⟩
      = Except.error DesignerError.elementNotFound := by
    unfold onDragEnd repositionEvent
    simp only [Bool.false_and, Bool.or_not_self, Bool.true_and, Bool.and_true,
      if_false]
    rw [hfn]
    cases hx : l.findIdx? (fun el => el.id == srcId) <;> simp
  refine ⟨h1, ?_, h2, ?_⟩
  · unfold applyDragEnd
    rw [h1]
  · unfold applyDragEnd
    rw [h2]

/-- C5 witness: with list [A], an event targeting the unknown id Z aborts with
the Element not found error and leaves the state untouched. -/
theorem unresolved_target_aborts_unchanged_witness :
    onDragEnd "n" (newFieldOverElementEvent ElementType.TextField "Z" true)
        ⟨[eA], some eA⟩
      = Except.error DesignerError.elementNotFound
    ∧ applyDragEnd "n" (newFieldOverElementEvent ElementType.TextField "Z" true)
        ⟨[eA], some eA⟩
      = ⟨[eA], some eA⟩
    ∧ onDragEnd "n" (repositionEvent "A" "Z" true) ⟨[eA], some eA⟩
      = Except.error DesignerError.elementNotFound
    ∧ applyDragEnd "n" (repositionEvent "A" "Z" true) ⟨[eA], some eA⟩
      = ⟨[eA], some eA⟩ :=
  unresolved_target_aborts_unchanged [eA] (some eA) "n" ElementType.TextField
    "A" "Z" true (by decide)

/-- C10: a reposition drag-end whose source and target ids both resolve in a
list with unique ids produces a permutation of the original list — same
length, same elements, nothing lost or duplicated. -/
theorem reposition_is_permutation (l : List FormElementInstance)
    (sel : Option FormElementInstance) (newId : String) (i j : Nat)
    (hi : i < l.length) (hj : j < l.length) (hnd : (ids l).Nodup)
    (bottom : Bool) :
    ∃ res,
      onDragEnd newId (repositionEvent ((l[i]).id) ((l[j]).id) bottom) ⟨l, sel⟩
        = Except.ok ⟨res, sel⟩
      ∧ res.Perm l
      ∧ res.length = l.length := by
  refine ⟨_, onDragEnd_reposition_eval l sel newId i j hi hj hnd bottom, ?_, ?_⟩
  · rw [addElement_ofNat, removeElement_eq_eraseIdx l hnd i hi]
    exact ((splice_perm_cons _ _ _).trans
      (perm_getElem_cons_eraseIdx l i hi).symm)
  · rw [addElement_ofNat, removeElement_eq_eraseIdx l hnd i hi]
    have := ((splice_perm_cons (if bottom then j + 1 else j) (l[i])
      (l.eraseIdx i)).trans (perm_getElem_cons_eraseIdx l i hi).symm)
    exact this.length_eq

/-- Erasing a later position leaves an earlier lookup untouched. -/
theorem getElem_eraseIdx_of_lt (l : List FormElementInstance) (i j : Nat)
    (hi : i < l.length) (hji : j < i)
    (hjlen : j < (l.eraseIdx i).length) :
    (l.eraseIdx i)[j] = l[j] := by
  have hj : j < l.length := by omega
  have h1 : (l.eraseIdx i)[j]? = l[j]? := by
    rw [List.eraseIdx_eq_take_drop_succ,
      List.getElem?_append_left (by rw [List.length_take]; omega),
      List.getElem?_take, if_pos hji]
  rw [List.getElem?_eq_getElem hjlen, List.getElem?_eq_getElem hj] at h1
  exact Option.some_inj.mp h1

/-- After erasing position `i`, looking up the id of the element that sat at
an earlier position `j` still finds `j`: the removal did not shift it. -/
theorem findIdx?_id_eraseIdx (l : List FormElementInstance)
    (hnd : (ids l).Nodup) (i j : Nat) (hi : i < l.length) (hj : j < l.length)
    (hji : j < i) :
    (l.eraseIdx i).findIdx? (fun el => el.id == (l[j]).id) = some j := by
  have hnd2 : (ids (l.eraseIdx i)).Nodup := by
    have hsub : List.Sublist (l.eraseIdx i) l := List.eraseIdx_sublist l i
    exact List.Nodup.sublist (List.Sublist.map FormElementInstance.id hsub) hnd
  have hjlen : j < (l.eraseIdx i).length := by
    rw [List.length_eraseIdx, if_pos hi]
    omega
  have h := findIdx?_id_at (l.eraseIdx i) hnd2 j hjlen
  rwa [getElem_eraseIdx_of_lt l i j hi hji hjlen] at h

/-- C1 counterexample: repositioning X of [X, B] onto the top half of B. The
code yields [B, X] (it inserts at B's pre-removal index 1), while the claimed
algorithm — recompute B's position in the shortened list and insert there —
yields [X, B]; the two differ. -/
theorem reposition_recompute_claim_cex :
    onDragEnd "n" (repositionEvent "X" "B" false) ⟨[eX, eB], none⟩
      = Except.ok ⟨[eB, eX], none⟩
    ∧ specReposition "X" "B" false [eX, eB] = some [eX, eB]
    ∧ ([eB, eX] : List FormElementInstance) ≠ [eX, eB] := by
  exact ⟨by decide, by decide, by decide⟩

/-- C1 (amended): a reposition drag-end removes the source element first and
reinserts it at the index the target held in the ORIGINAL, pre-removal list
(+1 for the bottom half); when the source's position is after the target's,
this coincides with the claim's recompute-after-removal algorithm, so in
particular repositioning X (position 2 of [A, B, X, C]) onto the top half of
B yields exactly [A, X, B, C]. -/
theorem reposition_source_after_target (l : List FormElementInstance)
    (sel : Option FormElementInstance) (newId : String) (i j : Nat)
    (hi : i < l.length) (hj : j < l.length) (hnd : (ids l).Nodup)
    (hji : j < i) (bottom : Bool) :
    onDragEnd newId (repositionEvent ((l[i]).id) ((l[j]).id) bottom) ⟨l, sel⟩
      = Except.ok ⟨addElement (Int.ofNat (if bottom then j + 1 else j)) (l[i])
          (removeElement ((l[i]).id) l), sel⟩
    ∧ specReposition ((l[i]).id) ((l[j]).id) bottom l
      = some (addElement (Int.ofNat (if bottom then j + 1 else j)) (l[i])
          (removeElement ((l[i]).id) l)) := by
  refine ⟨onDragEnd_reposition_eval l sel newId i j hi hj hnd bottom, ?_⟩
  have hsrc := findIdx?_id_at l hnd i hi
  have hrm := removeElement_eq_eraseIdx l hnd i hi
  have htgt := findIdx?_id_eraseIdx l hnd i j hi hj hji
  unfold specReposition
  rw [hsrc, hrm]
  simp only [htgt, List.getD_eq_getElem _ _ hi]

/-- C1 witness: the claim's named example. Repositioning X, at position 2 of
[A, B, X, C], onto the top half of B yields exactly [A, X, B, C], and the
spec-worded recompute algorithm agrees there. -/
theorem reposition_source_after_target_witness :
    onDragEnd "n" (repositionEvent "X" "B" false) ⟨[eA, eB, eX, eC], none⟩
      = Except.ok ⟨[eA, eX, eB, eC], none⟩
    ∧ specReposition "X" "B" false [eA, eB, eX, eC] = some [eA, eX, eB, eC] := by
  have h := reposition_source_after_target [eA, eB, eX, eC] none "n" 2 1
    (by decide) (by decide) (by decide) (by decide) false
  exact ⟨h.1.trans (by decide), h.2.trans (by decide)⟩

/-- C10 witness: repositioning X of [A, B, X, C] onto the top half of B keeps
the list a 4-element permutation. -/
theorem reposition_is_permutation_witness :
    ∃ res,
      onDragEnd "n" (repositionEvent "X" "B" false) ⟨[eA, eB, eX, eC], none⟩
        = Except.ok ⟨res, none⟩
      ∧ res.Perm [eA, eB, eX, eC]
      ∧ res.length = 4 :=
  reposition_is_permutation [eA, eB, eX, eC] none "n" 2 1 (by decide)
    (by decide) (by decide) false

/-- C2 counterexample: dropping X of [X, B] onto its own bottom half-zone is
not a no-op — the handler removes X and reinserts it at stale index 0 + 1,
yielding [B, X]. -/
theorem selfdrop_bottom_not_noop_cex :
    onDragEnd "n" (repositionEvent "X" "X" true) ⟨[eX, eB], none⟩
      = Except.ok ⟨[eB, eX], none⟩
    ∧ ([eB, eX] : List FormElementInstance) ≠ [eX, eB] :=
  ⟨by decide, by decide⟩

/-- C2 (amended): dropping an element onto its own TOP half-zone leaves the
list unchanged; dropping it onto its own BOTTOM half-zone reinserts it one
position later — it swaps with its immediate successor when one exists, and
is a no-op exactly when the element is last. The element is never duplicated
or lost. -/
theorem selfdrop_spec (l : List FormElementInstance)
    (sel : Option FormElementInstance) (newId : String) (i : Nat)
    (hi : i < l.length) (hnd : (ids l).Nodup) :
    onDragEnd newId (repositionEvent ((l[i]).id) ((l[i]).id) false) ⟨l, sel⟩
      = Except.ok ⟨l, sel⟩
    ∧ (∀ h1 : i + 1 < l.length,
        onDragEnd newId (repositionEvent ((l[i]).id) ((l[i]).id) true) ⟨l, sel⟩
          = Except.ok ⟨l.take i ++ l[i + 1] :: l[i] :: l.drop (i + 2), sel⟩)
    ∧ (i + 1 = l.length →
        onDragEnd newId (repositionEvent ((l[i]).id) ((l[i]).id) true) ⟨l, sel⟩
          = Except.ok ⟨l, sel⟩) := by
  have hrm := removeElement_eq_eraseIdx l hnd i hi
  have htd := List.eraseIdx_eq_take_drop_succ l i
  have hlt : (l.take i).length = i := by
    rw [List.length_take]
    omega
  refine ⟨?_, ?_, ?_⟩
  · have heval := onDragEnd_reposition_eval l sel newId i i hi hi hnd false
    rw [if_neg (by decide), addElement_ofNat, hrm, htd,
      List.take_left' hlt, List.drop_left' hlt, take_getElem_drop l i hi]
      at heval
    exact heval
  · intro h1
    have heval := onDragEnd_reposition_eval l sel newId i i hi hi hnd true
    have hdd : l.drop (i + 1) = l[i + 1] :: l.drop (i + 2) := by
      rw [List.drop_eq_getElem_cons h1]
    rw [if_pos rfl, addElement_ofNat, hrm, htd, hdd] at heval
    have htk : (l.take i ++ l[i + 1] :: l.drop (i + 2)).take (i + 1)
        = l.take i ++ [l[i + 1]] := by
      have h := @List.take_append _ (l.take i) (l[i + 1] :: l.drop (i + 2)) 1
      rw [hlt] at h
      rw [h]
      rfl
    have hdr : (l.take i ++ l[i + 1] :: l.drop (i + 2)).drop (i + 1)
        = l.drop (i + 2) := by
      have h := @List.drop_append _ (l.take i) (l[i + 1] :: l.drop (i + 2)) 1
      rw [hlt] at h
      rw [h]
      rfl
    rw [htk, hdr] at heval
    rw [heval]
    simp
  · intro h1
    have heval := onDragEnd_reposition_eval l sel newId i i hi hi hnd true
    have hnil : l.drop (i + 1) = [] := List.drop_eq_nil_of_le (by omega)
    rw [if_pos rfl, addElement_ofNat, hrm, htd, hnil, List.append_nil,
      List.take_of_length_le (by omega : (l.take i).length ≤ i + 1),
      List.drop_eq_nil_of_le (by omega : (l.take i).length ≤ i + 1)] at heval
    rw [heval]
    have hfin : l.take i ++ [l[i]] = l := by
      conv_rhs => rw [← take_getElem_drop l i hi]
      rw [hnil]
    rw [hfin]

/-- C2 witness: dropping X of [X, B] onto its own top half-zone leaves the
list unchanged, and the bottom-half self-drop on the last element of [A, B]
(B onto itself) is also unchanged. -/
theorem selfdrop_spec_witness :
    onDragEnd "n" (repositionEvent "X" "X" false) ⟨[eX, eB], none⟩
      = Except.ok ⟨[eX, eB], none⟩
    ∧ onDragEnd "n" (repositionEvent "B" "B" true) ⟨[eA, eB], none⟩
      = Except.ok ⟨[eA, eB], none⟩ := by
  have h1 := (selfdrop_spec [eX, eB] none "n" 0 (by decide) (by decide)).1
  have h2 := (selfdrop_spec [eA, eB] none "n" 1 (by decide) (by decide)).2.2
    (by decide)
  exact ⟨h1, h2⟩

/-- C6 counterexample: deleting the selected element A does remove it from the
list but leaves it selected — the selection state is not cleared to null. -/
theorem remove_keeps_selection_cex :
    (removeElementState "A" ⟨[eA], some eA⟩).elements = []
    ∧ (removeElementState "A" ⟨[eA], some eA⟩).selectedElement = some eA
    ∧ some eA ≠ (none : Option FormElementInstance) :=
  ⟨by decide, by decide, by decide⟩

/-- C6 (amended): `removeElement(id)` removes the element with that id from
the list (a no-op when the id is absent) and leaves the selection state
unchanged in every case — even when the removed element was the currently
selected one, the selection is NOT cleared. -/
theorem removeElement_no_selection_clear (s : DesignerState) (id : String)
    (hnd : (ids s.elements).Nodup) :
    (removeElementState id s).selectedElement = s.selectedElement
    ∧ ((∀ e ∈ s.elements, e.id ≠ id) → removeElementState id s = s)
    ∧ (∀ i (h : i < s.elements.length), (s.elements[i]).id = id →
        (removeElementState id s).elements = s.elements.eraseIdx i) := by
  refine ⟨rfl, ?_, ?_⟩
  · intro h
    unfold removeElementState removeElement
    have hf : List.filter (fun element => element.id != id) s.elements
        = s.elements := by
      rw [List.filter_eq_self]
      intro e he
      simpa using h e he
    rw [hf]
  · intro i h hid
    show removeElement id s.elements = _
    rw [← hid]
    exact removeElement_eq_eraseIdx s.elements hnd i h

/-- C6 witness: removing A from [A, B] with A selected erases position 0 and
keeps A selected. -/
theorem removeElement_no_selection_clear_witness :
    (removeElementState "A" ⟨[eA, eB], some eA⟩).selectedElement = some eA
    ∧ (removeElementState "A" ⟨[eA, eB], some eA⟩).elements
      = ([eA, eB] : List FormElementInstance).eraseIdx 0 := by
  have h := removeElement_no_selection_clear ⟨[eA, eB], some eA⟩ "A" (by decide)
  exact ⟨h.1, h.2.2 0 (by decide) (by decide)⟩

/-- C9: `updateElement(id, e)` replaces the element whose id matches with `e`
at its existing position, preserving the length and every other position; when
no element has the id it is a no-op (the JS write to slot -1 does not change
the array's indexed contents). -/
theorem updateElement_replaces_in_place (l : List FormElementInstance)
    (id : String) (e : FormElementInstance) (hnd : (ids l).Nodup) :
    (updateElement id e l).length = l.length
    ∧ ((∀ x ∈ l, x.id ≠ id) → updateElement id e l = l)
    ∧ (∀ i (h : i < l.length), (l[i]).id = id →
        updateElement id e l = l.set i e
        ∧ (updateElement id e l)[i]? = some e
        ∧ ∀ j, j ≠ i → (updateElement id e l)[j]? = l[j]?) := by
  refine ⟨?_, ?_, ?_⟩
  · unfold updateElement
    cases hx : l.findIdx? (fun el => el.id == id) <;> simp
  · intro h
    unfold updateElement
    rw [findIdx?_id_none l id h]
  · intro i h hid
    have hset : updateElement id e l = l.set i e := by
      unfold updateElement
      rw [← hid, findIdx?_id_at l hnd i h]
    refine ⟨hset, ?_, ?_⟩
    · rw [hset]
      exact List.getElem?_set_self h
    · intro j hj
      rw [hset]
      exact List.getElem?_set_ne (Ne.symm hj)

/-- C9 witness: updating B of [A, B] replaces position 1; updating the absent
id Z leaves the list unchanged. -/
theorem updateElement_replaces_in_place_witness :
    updateElement "B" eX [eA, eB] = ([eA, eB] : List FormElementInstance).set 1 eX
    ∧ (updateElement "B" eX [eA, eB])[1]? = some eX
    ∧ updateElement "Z" eX [eA, eB] = [eA, eB] := by
  have h := updateElement_replaces_in_place [eA, eB] "B" eX (by decide)
  have h2 := updateElement_replaces_in_place [eA, eB] "Z" eX (by decide)
  obtain ⟨hs, hg, _⟩ := h.2.2 1 (by decide) (by decide)
  exact ⟨hs, hg, h2.2.1 (by decide)⟩

/-- A string has length zero exactly when it is the empty string. -/
theorem string_length_eq_zero_iff (v : String) : v.length = 0 ↔ v = "" := by
  obtain ⟨data⟩ := v
  simp [String.length, String.ext_iff]

/-- C3 counterexample: a required checkbox with the non-empty raw value
"false" fails validation — `validate` is false although the value is not the
empty string, refuting the claimed biconditional. -/
theorem checkbox_validate_cex :
    truthyRequired cbReq = true
    ∧ ("false" : String) ≠ ""
    ∧ validate ElementType.CheckboxField cbReq "false" = false :=
  ⟨rfl, by decide, by decide⟩

/-- C3 (amended): for the input fields TextField, NumberField, DateField,
SelectField and TextAreaField, `validate` is false exactly when the required
attribute is truthy and the value is the empty string; the layout fields
TitleField, SubTitleField, ParagraphField, SeparatorField and SpacerField
always validate; CheckboxField is false exactly when required is truthy and
the value differs from "true" (the box must actually be checked). -/
theorem validate_required_contract (el : FormElementInstance) (v : String) :
    ((el.type = ElementType.TextField ∨ el.type = ElementType.NumberField
        ∨ el.type = ElementType.DateField ∨ el.type = ElementType.SelectField
        ∨ el.type = ElementType.TextAreaField) →
      (validate el.type el v = false ↔ truthyRequired el = true ∧ v = ""))
    ∧ ((el.type = ElementType.TitleField ∨ el.type = ElementType.SubTitleField
        ∨ el.type = ElementType.ParagraphField
        ∨ el.type = ElementType.SeparatorField
        ∨ el.type = ElementType.SpacerField) →
      validate el.type el v = true)
    ∧ (el.type = ElementType.CheckboxField →
      (validate el.type el v = false ↔ truthyRequired el = true ∧ v ≠ "true")) := by
  refine ⟨?_, ?_, ?_⟩
  · intro ht
    have hv : validate el.type el v = requiredNonEmptyValidate el v := by
      rcases ht with h | h | h | h | h <;> rw [h] <;> rfl
    rw [hv]
    unfold requiredNonEmptyValidate
    cases hr : truthyRequired el
    · simp [hr]
    · simp [hr, string_length_eq_zero_iff]
  · intro ht
    rcases ht with h | h | h | h | h <;> rw [h] <;> rfl
  · intro ht
    rw [ht]
    show checkboxValidate el v = false ↔ _
    unfold checkboxValidate
    cases hr : truthyRequired el
    · simp [hr]
    · simp [hr]

/-- C3 witness: a required empty text field fails, a title field always
passes, and a required checkbox with value "yes" fails. -/
theorem validate_required_contract_witness :
    validate ElementType.TextField tReq "" = false
    ∧ validate ElementType.TitleField (construct ElementType.TitleField "t1") "x"
      = true
    ∧ validate ElementType.CheckboxField cbReq "yes" = false := by
  have h1 := (validate_required_contract tReq "").1 (Or.inl rfl)
  have h2 := (validate_required_contract (construct ElementType.TitleField "t1")
    "x").2.1 (Or.inl rfl)
  have h3 := (validate_required_contract cbReq "yes").2.2 rfl
  exact ⟨h1.mpr ⟨rfl, rfl⟩, h2, h3.mpr ⟨rfl, by decide⟩⟩

/-- Splicing an element whose id is fresh keeps the id column duplicate-free. -/
theorem nodup_ids_splice (l : List FormElementInstance)
    (e : FormElementInstance) (k : Nat) (h : (ids l).Nodup)
    (he : e.id ∉ ids l) : (ids (l.take k ++ e :: l.drop k)).Nodup := by
  have hperm : (ids (l.take k ++ e :: l.drop k)).Perm (ids (e :: l)) :=
    (splice_perm_cons k e l).map FormElementInstance.id
  rw [hperm.nodup_iff, ids_cons, List.nodup_cons]
  exact ⟨he, h⟩

/-- Core invariant-preservation step behind C4: running fresh operations from
any duplicate-free list keeps the id column duplicate-free. -/
theorem freshRun_foldl_nodup (ops : List DesignerOp) :
    ∀ l, (ids l).Nodup → freshRun ops l = true →
      (ids (ops.foldl applyOp l)).Nodup := by
  induction ops with
  | nil =>
    intro l h _
    simpa using h
  | cons op rest ih =>
    intro l h hf
    unfold freshRun at hf
    rw [Bool.and_eq_true] at hf
    have hstep : (ids (applyOp l op)).Nodup := by
      cases op with
      | add index e =>
        have hni : e.id ∉ ids l := by
          have hd := hf.1
          simp only [Bool.not_eq_true'] at hd
          exact of_decide_eq_false hd
        exact nodup_ids_splice l e
          (if index < 0 then ((l.length : Int) + index).toNat else index.toNat)
          h hni
      | remove id =>
        exact List.Nodup.sublist
          (List.Sublist.map FormElementInstance.id (List.filter_sublist l)) h
    exact ih (applyOp l op) hstep hf.2

/-- C4 counterexample: adding the same element A twice with `addElement` —
the operations place no uniqueness guard — yields [A, A], whose ids are not
unique. -/
theorem duplicate_add_breaks_uniqueness_cex :
    ¬ (ids (runOps [DesignerOp.add 0 eA, DesignerOp.add 0 eA])).Nodup := by
  decide

/-- C4 (amended): for every sequence of `addElement`/`removeElement` calls on
the initially empty list in which each added element's id is not already
present at the moment of its insertion (as `idGenerator()` provides in the
app), all element ids in the resulting list are unique. -/
theorem fresh_sequences_preserve_unique_ids (ops : List DesignerOp)
    (h : freshRun ops [] = true) : (ids (runOps ops)).Nodup :=
  freshRun_foldl_nodup ops [] (by simp [ids]) h

/-- C4 witness: a concrete fresh sequence of adds (with an out-of-range and a
negative index) and a remove ends with unique ids. -/
theorem fresh_sequences_preserve_unique_ids_witness :
    freshRun [DesignerOp.add 0 eA, DesignerOp.add 5 eB, DesignerOp.remove "A",
      DesignerOp.add (-1) eC] [] = true
    ∧ (ids (runOps [DesignerOp.add 0 eA, DesignerOp.add 5 eB,
        DesignerOp.remove "A", DesignerOp.add (-1) eC])).Nodup :=
  ⟨by decide, fresh_sequences_preserve_unique_ids _ (by decide)⟩

/-- C7 counterexample: `addElement(-1, X)` on [A, B] inserts before the LAST
element — JS splice treats a negative index as end-relative — yielding
[A, X, B], not the [X, A, B] that clamping -1 to 0 would give. -/
theorem negative_index_not_clamped_cex :
    addElement (-1) eX [eA, eB] = [eA, eX, eB]
    ∧ ([eA, eX, eB] : List FormElementInstance) ≠ [eX, eA, eB] :=
  ⟨by decide, by decide⟩

/-- C7 (amended): `addElement(index, e)` inserts `e` at the JS splice position
— `min(index, N)` for a nonnegative index, `max(N + index, 0)` for a negative
one — shifting the subsequent elements one place right, leaving every other
element unchanged, and never raising an error (it is total). -/
theorem addElement_splice_semantics (l : List FormElementInstance) (idx : Int)
    (e : FormElementInstance) :
    addElement idx e l
      = l.take (spliceIndex idx l.length) ++ e :: l.drop (spliceIndex idx l.length)
    ∧ spliceIndex idx l.length ≤ l.length
    ∧ (0 ≤ idx → spliceIndex idx l.length = min idx.toNat l.length)
    ∧ (idx < 0 → (spliceIndex idx l.length : Int) = max ((l.length : Int) + idx) 0)
    ∧ (addElement idx e l).length = l.length + 1
    ∧ (addElement idx e l)[spliceIndex idx l.length]? = some e
    ∧ (∀ m, m < spliceIndex idx l.length → (addElement idx e l)[m]? = l[m]?)
    ∧ (∀ m, (addElement idx e l)[spliceIndex idx l.length + 1 + m]?
        = l[spliceIndex idx l.length + m]?) := by
  have hkle : spliceIndex idx l.length ≤ l.length := by
    unfold spliceIndex
    split <;> omega
  have hEq : addElement idx e l
      = l.take (spliceIndex idx l.length)
        ++ e :: l.drop (spliceIndex idx l.length) := by
    unfold addElement spliceIndex
    by_cases hneg : idx < 0
    · simp only [if_pos hneg]
    · simp only [if_neg hneg]
      by_cases hle : idx.toNat ≤ l.length
      · rw [min_eq_left hle]
      · rw [min_eq_right (by omega), List.take_of_length_le (by omega),
          List.take_of_length_le (le_refl _),
          List.drop_of_length_le (by omega),
          List.drop_of_length_le (le_refl _)]
  have hlt : (l.take (spliceIndex idx l.length)).length
      = spliceIndex idx l.length := by
    rw [List.length_take]
    omega
  refine ⟨hEq, hkle, ?_, ?_, ?_, ?_, ?_, ?_⟩
  · intro hpos
    unfold spliceIndex
    rw [if_neg (by omega)]
  · intro hneg
    unfold spliceIndex
    rw [if_pos hneg]
    omega
  · rw [hEq, List.length_append, List.length_cons, List.length_take,
      List.length_drop]
    omega
  · rw [hEq, List.getElem?_append_right (by omega), hlt, Nat.sub_self]
    simp
  · intro m hm
    rw [hEq, List.getElem?_append_left (by omega), List.getElem?_take,
      if_pos hm]
  · intro m
    rw [hEq, List.getElem?_append_right (by omega), hlt]
    have hidx : spliceIndex idx l.length + 1 + m - spliceIndex idx l.length
        = m + 1 := by omega
    rw [hidx, List.getElem?_cons_succ, List.getElem?_drop]

/-- C7 witness: inserting X at index -1 of the two-element list [A, B] uses
splice position 2 + (-1) = 1 and grows the list to length 3. -/
theorem addElement_splice_semantics_witness :
    addElement (-1) eX [eA, eB]
      = ([eA, eB] : List FormElementInstance).take (spliceIndex (-1) 2)
        ++ eX :: ([eA, eB] : List FormElementInstance).drop (spliceIndex (-1) 2)
    ∧ (addElement (-1) eX [eA, eB]).length = 2 + 1
    ∧ (spliceIndex (-1) 2 : Int) = max ((2 : Int) + (-1)) 0 := by
  have h := addElement_splice_semantics [eA, eB] (-1) eX
  exact ⟨h.1, h.2.2.2.2.1, h.2.2.2.1 (by decide)⟩

end Forge
